import Mathlib

set_option maxHeartbeats 1000000

/-! # Verification of the bot_v2 media-relay core

Shallow embedding of the rate limiter, URL classifier, download pipeline and
Instagram fallback client of this repository (src/bot.py,
src/instagram_client.py), together with proofs about the claims of the
specification.

Modelling conventions:
* Unix time (a Python float from `time.time()`) is modelled as a rational
  number; user ids (Python ints) as integers.
* Python dictionaries are modelled as total functions carrying the dictionary's
  default value (a missing `user_timestamps` key behaves as an empty deque, and
  `user_cooldowns.get(user_id, 0)` defaults to `0`).
* A `deque` of timestamps is a list whose head is the front of the deque.
* Filesystem state and the effects of the external `yt_dlp` / `instagrapi`
  libraries are passed in explicitly as arguments describing their outcome.
* The Python regular expressions are embedded as executable matchers over
  `List Char`; the character classes `\w`, `\d`, `\s` are modelled over their
  ASCII ranges.  Every quantified subpattern in the three URL patterns of
  src/bot.py is a character class whose follower character is outside the
  class, and every alternation branch is tried in order with its whole
  continuation, so the committed-choice matchers below compute exactly the
  Python `re` leftmost match for these patterns.
-/

/-! ## Rate limiter (src/bot.py lines 20-25, 312-331) -/

def REQUEST_LIMIT : Nat := 50

def REQUEST_WINDOW : Int := 3600

def COOLDOWN_TIME : Int := 1800

structure RateState where
  user_timestamps : Int → List ℚ
  user_cooldowns : Int → ℚ

/-- The process-start state: both dictionaries empty. -/
def rl_init : RateState := ⟨fun _ => [], fun _ => 0⟩

/-- Python `int(q)` applied to a float/rational: truncation toward zero
(on the reduced fraction `num/den` this is `num.tdiv den`). -/
def py_int (q : ℚ) : Int := q.num.tdiv q.den

/-- The eviction loop of bot.py lines 323-324:
`while timestamps and timestamps[0] < now - REQUEST_WINDOW: timestamps.popleft()`. -/
def evictOld (now : ℚ) : List ℚ → List ℚ
  | [] => []
  | t :: ts => if t < now - (REQUEST_WINDOW : ℚ) then evictOld now ts else t :: ts

/-- Write identity `a`'s timestamp deque (the in-place deque mutation). -/
def updT (s : RateState) (a : Int) (q : List ℚ) : RateState :=
  ⟨fun u => if u = a then q else s.user_timestamps u, s.user_cooldowns⟩

/-- Write identity `a`'s cooldown entry (`user_cooldowns[a] = c`). -/
def updC (s : RateState) (a : Int) (c : ℚ) : RateState :=
  ⟨s.user_timestamps, fun u => if u = a then c else s.user_cooldowns u⟩

/-- bot.py `check_rate_limit` (lines 312-331), with `time.time()` passed in as
`now` and the global dictionaries as an explicit state.  Returns the
`(allowed, minutes)` pair together with the post-call state; the evictions
performed on the deque persist in every branch that reaches them. -/
def check_rate_limit (user_id : Int) (now : ℚ) (s : RateState) :
    (Bool × Int) × RateState :=
  let cooldown := s.user_cooldowns user_id
  if now < cooldown then
    ((false, py_int ((cooldown - now) / 60)), s)
  else
    let timestamps := evictOld now (s.user_timestamps user_id)
    if REQUEST_LIMIT ≤ timestamps.length then
      ((false, COOLDOWN_TIME / 60),
        updC (updT s user_id timestamps) user_id (now + (COOLDOWN_TIME : ℚ)))
    else
      ((true, 0), updT s user_id (timestamps ++ [now]))

/-- Run a sequence of `(identity, time)` calls through `check_rate_limit`,
collecting each call's result tagged with its identity. -/
def rl_run : List (Int × ℚ) → RateState → List (Int × (Bool × Int)) × RateState
  | [], s => ([], s)
  | (a, t) :: es, s =>
    let step := check_rate_limit a t s
    let rest := rl_run es step.2
    ((a, step.1) :: rest.1, rest.2)

/-- Two states agree on everything identity `a`'s rate-limit check can read. -/
def agreeAt (a : Int) (s t : RateState) : Prop :=
  s.user_timestamps a = t.user_timestamps a ∧ s.user_cooldowns a = t.user_cooldowns a

/-! ## Download pipeline (src/bot.py lines 112-143, 149-293, 375-400) -/

/-- A file in the scratch directory, as seen by `Path.iterdir()`:
its full path, `Path.stem` and `Path.suffix`. -/
structure FsFile where
  path : String
  stem : String
  suffix : String
deriving DecidableEq

def valid_video_exts : List String := [".mp4", ".mov", ".mkv", ".webm"]

def valid_photo_exts : List String := [".jpg", ".jpeg", ".png", ".webp"]

def valid_exts : List String := valid_video_exts ++ valid_photo_exts

/-- Outcome of the primary `ydl.extract_info` attempt in `download_media`:
it returned `None`, returned info whose prepared filename has the given stem,
raised `yt_dlp.utils.DownloadError` with the given message, or raised some
other exception. -/
inductive ExtractOutcome where
  | infoNone
  | info (base : String)
  | downloadError (msg : String)
  | otherError
deriving DecidableEq

def NO_VIDEO_MSG : String := "There is no video in this post"

/-- Prefix comparison of character lists. -/
def charsMatch : List Char → List Char → Bool
  | [], _ => true
  | _ :: _, [] => false
  | a :: as, b :: bs => a == b && charsMatch as bs

/-- Python's substring test `needle in hay` on character lists. -/
def hasSubstringL (needle : List Char) : List Char → Bool
  | [] => charsMatch needle []
  | s@(_ :: rest) => charsMatch needle s || hasSubstringL needle rest

/-- Python's substring test `needle in hay` on strings. -/
def hasSubstring (needle hay : String) : Bool := hasSubstringL needle.data hay.data

/-- Python `str.lower()` on one character, over the ASCII range the extension
strings use. -/
def lowerChar (c : Char) : Char :=
  if 'A' ≤ c ∧ c ≤ 'Z' then Char.ofNat (c.toNat + 32) else c

/-- Python `str.lower()` (ASCII). -/
def lowerStr (s : String) : String := String.mk (s.data.map lowerChar)

/-- Media-kind classification by extension (bot.py lines 267, 274):
photo extensions give "photo", every other recognized extension "video". -/
def mediaTypeOf (f : FsFile) : String :=
  if valid_photo_exts.contains (lowerStr f.suffix) then "photo" else "video"

/-- bot.py `_download_photo_fallback` (lines 112-143).  The thumbnail
`extract_info` call either raises (`none`) or leaves the scratch directory
holding `files` (in `iterdir` order); the first file with a photo extension is
returned as a photo, otherwise the fallback fails. -/
def download_photo_fallback (fallbackFiles : Option (List FsFile)) :
    Option String × String :=
  match fallbackFiles with
  | none => (none, "unknown")
  | some files =>
    match files.find? (fun f => valid_photo_exts.contains (lowerStr f.suffix)) with
    | some f => (some f.path, "photo")
    | none => (none, "unknown")

/-- bot.py `download_media` (lines 149-293), abstracted over the effects of the
primary yt-dlp attempt (`primary`, with `dirFiles` the scratch directory
contents it leaves, in `iterdir` order) and of the photo fallback
(`fallbackFiles`, the same scratch directory after the thumbnail attempt, or
`none` when that attempt raises). -/
def download_media (primary : ExtractOutcome) (dirFiles : List FsFile)
    (fallbackFiles : Option (List FsFile)) : Option String × String :=
  match primary with
  | .infoNone => (none, "unknown")
  | .info base =>
    match dirFiles.find? (fun f => f.stem == base && valid_exts.contains (lowerStr f.suffix)) with
    | some f => (some f.path, mediaTypeOf f)
    | none =>
      match dirFiles.find? (fun f => valid_exts.contains (lowerStr f.suffix)) with
      | some f => (some f.path, mediaTypeOf f)
      | none => (none, "unknown")
  | .downloadError msg =>
    if hasSubstring NO_VIDEO_MSG msg then download_photo_fallback fallbackFiles
    else (none, "unknown")
  | .otherError => (none, "unknown")

/-- Terminal outcome of the result-handling block of `handle_message`. -/
inductive PipelineResult where
  | success (filePath : String) (mediaKind : String)
  | failUnavailable
  | failTooLarge
deriving DecidableEq

def SIZE_LIMIT : Nat := 50 * 1024 * 1024

/-- bot.py `handle_message` lines 375-400: the existence and size gate between
`download_media`'s `(media_path, media_type)` result and sending the file.
`fs` maps a path to its `st_size` when the file exists.  `not media_path`
is true in Python for both `None` and the empty string. -/
def handle_media_result (media_path : Option String) (media_type : String)
    (fs : String → Option Nat) : PipelineResult :=
  match media_path with
  | none => .failUnavailable
  | some p =>
    if p = "" then .failUnavailable
    else
      match fs p with
      | none => .failUnavailable
      | some size =>
        if SIZE_LIMIT < size then .failTooLarge
        else .success p media_type

/-! ## Instagram fallback client (src/instagram_client.py lines 94-142, 160-203) -/

def MEDIA_TYPE_PHOTO : Nat := 1

def MEDIA_TYPE_VIDEO : Nat := 2

def MEDIA_TYPE_ALBUM : Nat := 8

/-- Result of `InstagramClient.download`: the list of downloaded file paths and
the media-type label, or a raised exception's message. -/
inductive IgDownload where
  | ok (files : List String) (media_type : String)
  | err (msg : String)
deriving DecidableEq

/-- instagram_client.py `InstagramClient.download` (lines 94-142), abstracted
over the instagrapi client: `media_type_id` is `media_info.media_type`, and
`photoFile` / `videoFile` / `albumFiles` are what `photo_download` /
`video_download` / `album_download` would place in the output directory. -/
def instagram_client_download (media_type_id : Nat) (photoFile videoFile : String)
    (albumFiles : List String) : IgDownload :=
  if media_type_id = MEDIA_TYPE_PHOTO then .ok [photoFile] "photo"
  else if media_type_id = MEDIA_TYPE_VIDEO then .ok [videoFile] "video"
  else if media_type_id = MEDIA_TYPE_ALBUM then .ok albumFiles "album"
  else .err "Unknown media_type"

/-- instagram_client.py `download_instagram_media` (lines 160-203): the
post-processing of `InstagramClient.download`'s outcome into a single
`(filepath, media_type)` pair (exceptions give `(None, "unknown")`). -/
def download_instagram_media (dl : IgDownload) : Option String × String :=
  match dl with
  | .err _ => (none, "unknown")
  | .ok files media_type =>
    match files with
    | [] => (none, "unknown")
    | f :: _ =>
      if media_type = "album" then (some f, "photo")
      else (some f, media_type)

/-! ## URL classifier (src/bot.py lines 37-45, 97-106)

A parser consumes a prefix of its input and returns `(consumed, rest)`. -/

abbrev Parser := List Char → Option (List Char × List Char)

/-- Match the empty string. -/
def pEps : Parser := fun s => some ([], s)

/-- Match one character of the class `p`. -/
def pChar (p : Char → Bool) : Parser := fun s =>
  match s with
  | [] => none
  | c :: cs => if p c then some ([c], cs) else none

/-- Match a literal character sequence. -/
def pLit : List Char → Parser
  | [], s => some ([], s)
  | _ :: _, [] => none
  | c :: cs, x :: xs =>
    if c == x then
      match pLit cs xs with
      | some (d, r) => some (x :: d, r)
      | none => none
    else none

/-- Maximal run of characters of class `p` (total). -/
def pRun (p : Char → Bool) : List Char → List Char × List Char
  | [] => ([], [])
  | c :: cs =>
    if p c then
      let r := pRun p cs
      (c :: r.1, r.2)
    else ([], c :: cs)

/-- Greedy `p*`. -/
def pStar (p : Char → Bool) : Parser := fun s => some (pRun p s)

/-- Greedy `p+`. -/
def pPlus (p : Char → Bool) : Parser := fun s =>
  match s with
  | [] => none
  | c :: cs =>
    if p c then
      let r := pRun p cs
      some (c :: r.1, r.2)
    else none

/-- Sequencing. -/
def pSeq (a b : Parser) : Parser := fun s =>
  match a s with
  | none => none
  | some (c1, r1) =>
    match b r1 with
    | none => none
    | some (c2, r2) => some (c1 ++ c2, r2)

/-- Ordered alternation (first branch preferred, as in Python `re`). -/
def pAlt (a b : Parser) : Parser := fun s =>
  match a s with
  | some x => some x
  | none => b s

/-- Greedy optional character (`c?`). -/
def pOptChar (p : Char → Bool) : Parser := pAlt (pChar p) pEps

/-- `\w` over ASCII. -/
def isWordCh (c : Char) : Bool := c.isAlphanum || c == '_'

/-- `\s` over ASCII. -/
def isSpaceCh (c : Char) : Bool :=
  c == ' ' || c == '\t' || c == '\n' || c == '\r' || c == '\x0b' || c == '\x0c'

/-- `[A-Za-z0-9_\-]`. -/
def igSlugCh (c : Char) : Bool := c.isAlphanum || c == '_' || c == '-'

/-- `[\w\.-]`. -/
def tkUserCh (c : Char) : Bool := isWordCh c || c == '.' || c == '-'

/-- `[\w\-]`. -/
def tkWordCh (c : Char) : Bool := isWordCh c || c == '-'

/-- `[\w\-\.]`. -/
def fbPageCh (c : Char) : Bool := isWordCh c || c == '-' || c == '.'

/-- `[\d\w\-]`. -/
def fbIdCh (c : Char) : Bool := c.isDigit || isWordCh c || c == '-'

/-- `https?://`. -/
def httpPart : Parser :=
  pSeq (pLit ("http".data)) (pSeq (pOptChar (fun c => c == 's')) (pLit ("://".data)))

/-- `(?:/[^\s]*)?`. -/
def optSlashTail : Parser :=
  pAlt (pSeq (pChar (fun c => c == '/')) (pStar (fun c => !isSpaceCh c))) pEps

/-- `(?:reels?|p|tv)`. -/
def igBody : Parser :=
  pAlt (pSeq (pLit ("reel".data)) (pOptChar (fun c => c == 's')))
    (pAlt (pLit ("p".data)) (pLit ("tv".data)))

/-- `INSTAGRAM_URL_PATTERN` (bot.py lines 37-39), anchored at a position. -/
def igAt : Parser :=
  pSeq httpPart
    (pSeq (pAlt (pLit ("www.".data)) pEps)
      (pSeq (pLit ("instagram.com/".data))
        (pSeq igBody
          (pSeq (pChar (fun c => c == '/'))
            (pSeq (pPlus igSlugCh) optSlashTail)))))

/-- `(?:www\.|vm\.|vt\.|m\.)?`. -/
def tkLead : Parser :=
  pAlt (pLit ("www.".data))
    (pAlt (pLit ("vm.".data)) (pAlt (pLit ("vt.".data)) (pAlt (pLit ("m.".data)) pEps)))

/-- `@[\w\.-]+/video/\d+`. -/
def tkAlt1 : Parser :=
  pSeq (pChar (fun c => c == '@'))
    (pSeq (pPlus tkUserCh) (pSeq (pLit ("/video/".data)) (pPlus Char.isDigit)))

/-- `v/\d+\.html`. -/
def tkAlt2 : Parser :=
  pSeq (pLit ("v/".data)) (pSeq (pPlus Char.isDigit) (pLit (".html".data)))

/-- `[\w\-]+`. -/
def tkAlt3 : Parser := pPlus tkWordCh

/-- `TIKTOK_URL_PATTERN` (bot.py lines 40-42), anchored at a position. -/
def tkAt : Parser :=
  pSeq httpPart
    (pSeq tkLead
      (pSeq (pLit ("tiktok.com/".data))
        (pSeq (pAlt tkAlt1 (pAlt tkAlt2 tkAlt3)) optSlashTail)))

/-- `(?:www\.|m\.|web\.)?`. -/
def fbLead : Parser :=
  pAlt (pLit ("www.".data)) (pAlt (pLit ("m.".data)) (pAlt (pLit ("web.".data)) pEps))

/-- `watch/?\?v=`. -/
def fbAlt1 : Parser :=
  pSeq (pLit ("watch".data)) (pSeq (pOptChar (fun c => c == '/')) (pLit ("?v=".data)))

/-- `[\w\-\.]+/videos/`. -/
def fbAlt2 : Parser := pSeq (pPlus fbPageCh) (pLit ("/videos/".data))

/-- `share/[vr]/`. -/
def fbAlt3 : Parser :=
  pSeq (pLit ("share/".data))
    (pSeq (pChar (fun c => c == 'v' || c == 'r')) (pChar (fun c => c == '/')))

/-- `[\d\w\-]+`. -/
def fbTail : Parser := pPlus fbIdCh

/-- `FACEBOOK_URL_PATTERN` (bot.py lines 43-45), anchored at a position; the
final `[\d\w\-]+` is tried with each alternative of the body group. -/
def fbAt : Parser :=
  pSeq httpPart
    (pSeq fbLead
      (pSeq (pLit ("facebook.com/".data))
        (pAlt (pSeq fbAlt1 fbTail) (pAlt (pSeq fbAlt2 fbTail) (pSeq fbAlt3 fbTail)))))

/-- `pattern.search(text)`: try the anchored matcher at each position from the
left; on the first success return `(prefix skipped, span matched, rest)`. -/
def pySearch (m : Parser) : List Char → Option (List Char × List Char × List Char)
  | [] =>
    match m [] with
    | some (c, r) => some ([], c, r)
    | none => none
  | ch :: rest =>
    match m (ch :: rest) with
    | some (c, r) => some ([], c, r)
    | none =>
      match pySearch m rest with
      | some (pre, c, r) => some (ch :: pre, c, r)
      | none => none

/-- bot.py `extract_video_url` (lines 97-106): apply the three platform
patterns in priority order, returning the first one's matched span (`group(0)`)
paired with its platform tag. -/
def extract_video_url (text : String) : Option (String × String) :=
  match pySearch igAt text.data with
  | some (_, span, _) => some (String.mk span, "instagram")
  | none =>
    match pySearch tkAt text.data with
    | some (_, span, _) => some (String.mk span, "tiktok")
    | none =>
      match pySearch fbAt text.data with
      | some (_, span, _) => some (String.mk span, "facebook")
      | none => none

/-- A parser only consumes a prefix of its input: whenever it succeeds, the
input splits as the consumed span followed by the remainder. -/
def Consumes (P : Parser) : Prop :=
  ∀ s c r, P s = some (c, r) → s = c ++ r

/-! ## Rate limiter lemmas -/

lemma updT_timestamps_self (s : RateState) (a : Int) (q : List ℚ) :
    (updT s a q).user_timestamps a = q := by
  simp [updT]

lemma updT_timestamps_other (s : RateState) (a b : Int) (q : List ℚ) (h : b ≠ a) :
    (updT s a q).user_timestamps b = s.user_timestamps b := by
  simp [updT, h]

lemma updC_cooldowns_self (s : RateState) (a : Int) (c : ℚ) :
    (updC s a c).user_cooldowns a = c := by
  simp [updC]

lemma updC_cooldowns_other (s : RateState) (a b : Int) (c : ℚ) (h : b ≠ a) :
    (updC s a c).user_cooldowns b = s.user_cooldowns b := by
  simp [updC, h]

lemma updT_updT (s : RateState) (a : Int) (q q2 : List ℚ) :
    updT (updT s a q) a q2 = updT s a q2 := by
  cases s
  simp only [updT, RateState.mk.injEq]
  refine ⟨?_, trivial⟩
  funext u
  by_cases h : u = a <;> simp [h]

lemma updT_self (s : RateState) (a : Int) :
    updT s a (s.user_timestamps a) = s := by
  cases s
  simp only [updT, RateState.mk.injEq]
  refine ⟨?_, trivial⟩
  funext u
  by_cases h : u = a <;> simp [h]

lemma check_eq_cooldown (a : Int) (now : ℚ) (s : RateState)
    (h : now < s.user_cooldowns a) :
    check_rate_limit a now s = ((false, py_int ((s.user_cooldowns a - now) / 60)), s) := by
  simp [check_rate_limit, h]

lemma check_eq_blocked (a : Int) (now : ℚ) (s : RateState)
    (h1 : ¬ now < s.user_cooldowns a)
    (h2 : REQUEST_LIMIT ≤ (evictOld now (s.user_timestamps a)).length) :
    check_rate_limit a now s =
      ((false, COOLDOWN_TIME / 60),
        updC (updT s a (evictOld now (s.user_timestamps a))) a (now + (COOLDOWN_TIME : ℚ))) := by
  simp [check_rate_limit, h1, h2]

lemma check_eq_allowed (a : Int) (now : ℚ) (s : RateState)
    (h1 : ¬ now < s.user_cooldowns a)
    (h2 : ¬ REQUEST_LIMIT ≤ (evictOld now (s.user_timestamps a)).length) :
    check_rate_limit a now s =
      ((true, 0), updT s a (evictOld now (s.user_timestamps a) ++ [now])) := by
  simp [check_rate_limit, h1, h2]

lemma evictOld_eq_dropWhile (now : ℚ) (l : List ℚ) :
    evictOld now l = l.dropWhile (fun t => decide (t < now - (REQUEST_WINDOW : ℚ))) := by
  induction l with
  | nil => rfl
  | cons t ts ih =>
    by_cases h : t < now - (REQUEST_WINDOW : ℚ) <;> simp [evictOld, List.dropWhile, h, ih]

lemma evictOld_eq_self (now : ℚ) (l : List ℚ)
    (h : ∀ x ∈ l, ¬ x < now - (REQUEST_WINDOW : ℚ)) : evictOld now l = l := by
  cases l with
  | nil => rfl
  | cons t ts => simp [evictOld, h t (by simp)]

lemma evictOld_length_le (now : ℚ) (l : List ℚ) : (evictOld now l).length ≤ l.length := by
  induction l with
  | nil => simp [evictOld]
  | cons t ts ih =>
    by_cases h : t < now - (REQUEST_WINDOW : ℚ)
    · simp only [evictOld, if_pos h, List.length_cons]
      omega
    · simp [evictOld, h]

lemma py_int_eq_floor (q : ℚ) (h : 0 ≤ q) : py_int q = ⌊q⌋ := by
  unfold py_int
  rw [Rat.floor_def, Int.tdiv_eq_ediv (Rat.num_nonneg.2 h) (Int.natCast_nonneg q.den)]

/-! ## Theorems: C1, C6, C7, C8 -/

/-- **C1**: for every identity, `check_rate_limit` follows the specified
algorithm with LIMIT = 50, WINDOW = 3600 s, COOLDOWN = 1800 s: if `now` is
before the identity's cooldown expiry it returns Blocked (state untouched);
otherwise it evicts from the front of the identity's queue every timestamp
older than `now - WINDOW`; then, if at least LIMIT entries remain, it sets the
cooldown expiry to `now + COOLDOWN` and returns Blocked with COOLDOWN/60
minutes; otherwise it appends `now` to the queue and returns Allowed. -/
theorem c1_check_rate_limit_algorithm (a : Int) (now : ℚ) (s : RateState) :
    (REQUEST_LIMIT = 50 ∧ REQUEST_WINDOW = 3600 ∧ COOLDOWN_TIME = 1800) ∧
    (now < s.user_cooldowns a →
      (check_rate_limit a now s).1.1 = false ∧ (check_rate_limit a now s).2 = s) ∧
    (¬ now < s.user_cooldowns a →
      (if REQUEST_LIMIT ≤ ((s.user_timestamps a).dropWhile
          (fun t => decide (t < now - (REQUEST_WINDOW : ℚ)))).length then
        (check_rate_limit a now s).1 = (false, COOLDOWN_TIME / 60) ∧
        (check_rate_limit a now s).2.user_cooldowns a = now + (COOLDOWN_TIME : ℚ) ∧
        (check_rate_limit a now s).2.user_timestamps a =
          (s.user_timestamps a).dropWhile (fun t => decide (t < now - (REQUEST_WINDOW : ℚ)))
      else
        (check_rate_limit a now s).1 = (true, 0) ∧
        (check_rate_limit a now s).2.user_timestamps a =
          (s.user_timestamps a).dropWhile (fun t => decide (t < now - (REQUEST_WINDOW : ℚ)))
            ++ [now] ∧
        (check_rate_limit a now s).2.user_cooldowns a = s.user_cooldowns a)) := by
  refine ⟨⟨rfl, rfl, rfl⟩, fun h => ?_, fun h => ?_⟩
  · rw [check_eq_cooldown a now s h]
    exact ⟨rfl, rfl⟩
  · rw [← evictOld_eq_dropWhile]
    by_cases h2 : REQUEST_LIMIT ≤ (evictOld now (s.user_timestamps a)).length
    · rw [if_pos h2, check_eq_blocked a now s h h2]
      refine ⟨rfl, ?_, ?_⟩
      · simp [updC]
      · simp [updC, updT]
    · rw [if_neg h2, check_eq_allowed a now s h h2]
      refine ⟨rfl, ?_, rfl⟩
      simp [updT]

/-- Witness for C1: a concrete identity in cooldown is blocked with the state
untouched. -/
theorem c1_witness :
    (check_rate_limit 7 0 (updC rl_init 7 90)).1.1 = false ∧
    (check_rate_limit 7 0 (updC rl_init 7 90)).2 = updC rl_init 7 90 :=
  (c1_check_rate_limit_algorithm 7 0 (updC rl_init 7 90)).2.1 (by decide)

/-- **C6** is false as stated: with a cooldown expiring 90 s from now the code
reports `int(90/60) = 1` minute, while `ceil(90/60) = 2` minutes. -/
theorem c6_counterexample :
    (check_rate_limit 7 0 (updC rl_init 7 90)).1 = (false, 1) ∧
    ⌈(((updC rl_init 7 90).user_cooldowns 7 - 0) / 60 : ℚ)⌉ = 2 := by
  constructor
  · rw [check_eq_cooldown 7 0 (updC rl_init 7 90) (by decide)]
    have h1 : (updC rl_init 7 90).user_cooldowns 7 / 60 = (3 / 2 : ℚ) := by
      norm_num [updC, rl_init]
    have h2 : py_int (3 / 2 : ℚ) = 1 := by
      rw [py_int_eq_floor _ (by norm_num), Int.floor_eq_iff]
      norm_num
    simp [h1, h2]
  · show ⌈(((90 : ℚ) - 0) / 60 : ℚ)⌉ = 2
    rw [Int.ceil_eq_iff]
    norm_num

/-- **C6** (amended): a call during cooldown reports Blocked with
`floor((cooldownExpiry - now)/60)` minutes (Python `int` truncation, which on
this positive quantity is the floor), not the ceiling. -/
theorem c6_blocked_minutes_floor (a : Int) (now : ℚ) (s : RateState)
    (h : now < s.user_cooldowns a) :
    (check_rate_limit a now s).1 = (false, ⌊(s.user_cooldowns a - now) / 60⌋) := by
  rw [check_eq_cooldown a now s h]
  have h0 : (0 : ℚ) ≤ (s.user_cooldowns a - now) / 60 := by
    have : (0 : ℚ) ≤ s.user_cooldowns a - now := sub_nonneg.2 h.le
    positivity
  rw [py_int_eq_floor _ h0]

/-- Witness for the amended C6. -/
theorem c6_witness :
    (check_rate_limit 3 0 (updC rl_init 3 120)).1 =
      (false, ⌊((updC rl_init 3 120).user_cooldowns 3 - 0) / 60⌋) :=
  c6_blocked_minutes_floor 3 0 (updC rl_init 3 120) (by decide)

/-- **C7**: while an identity is in cooldown, every call for it returns
Blocked and leaves its timestamp queue (indeed the whole state) unchanged. -/
theorem c7_cooldown_blocks_without_append (a : Int) (now : ℚ) (s : RateState)
    (h : now < s.user_cooldowns a) :
    (check_rate_limit a now s).1.1 = false ∧
    (check_rate_limit a now s).2.user_timestamps a = s.user_timestamps a ∧
    (check_rate_limit a now s).2 = s := by
  rw [check_eq_cooldown a now s h]
  exact ⟨rfl, rfl, rfl⟩

/-- Witness for C7. -/
theorem c7_witness :
    (check_rate_limit 4 10 (updC rl_init 4 25)).1.1 = false ∧
    (check_rate_limit 4 10 (updC rl_init 4 25)).2.user_timestamps 4 =
      (updC rl_init 4 25).user_timestamps 4 ∧
    (check_rate_limit 4 10 (updC rl_init 4 25)).2 = updC rl_init 4 25 :=
  c7_cooldown_blocks_without_append 4 10 (updC rl_init 4 25) (by decide)

/-- **C8**: a single call leaves the identity's cooldown expiry unchanged or
strictly larger, and assigns it only in the branch where the post-eviction
window count reached LIMIT, where it becomes `now + COOLDOWN`. -/
theorem c8_cooldown_monotone (a : Int) (now : ℚ) (s : RateState) :
    ((check_rate_limit a now s).2.user_cooldowns a = s.user_cooldowns a ∨
      s.user_cooldowns a < (check_rate_limit a now s).2.user_cooldowns a) ∧
    ((check_rate_limit a now s).2.user_cooldowns a ≠ s.user_cooldowns a →
      ¬ now < s.user_cooldowns a ∧
      REQUEST_LIMIT ≤ ((s.user_timestamps a).dropWhile
        (fun t => decide (t < now - (REQUEST_WINDOW : ℚ)))).length ∧
      (check_rate_limit a now s).2.user_cooldowns a = now + (COOLDOWN_TIME : ℚ)) := by
  by_cases h1 : now < s.user_cooldowns a
  · rw [check_eq_cooldown a now s h1]
    exact ⟨Or.inl rfl, fun hne => absurd rfl hne⟩
  · by_cases h2 : REQUEST_LIMIT ≤ (evictOld now (s.user_timestamps a)).length
    · rw [check_eq_blocked a now s h1 h2]
      have hcool :
          (updC (updT s a (evictOld now (s.user_timestamps a))) a
            (now + (COOLDOWN_TIME : ℚ))).user_cooldowns a = now + (COOLDOWN_TIME : ℚ) := by
        simp [updC]
      have hpos : (0 : ℚ) < (COOLDOWN_TIME : ℚ) := by norm_num [COOLDOWN_TIME]
      constructor
      · right
        rw [hcool]
        calc s.user_cooldowns a ≤ now := not_lt.1 h1
          _ < now + (COOLDOWN_TIME : ℚ) := lt_add_of_pos_right now hpos
      · intro _
        exact ⟨h1, by rw [← evictOld_eq_dropWhile]; exact h2, hcool⟩
    · rw [check_eq_allowed a now s h1 h2]
      exact ⟨Or.inl rfl, fun hne => absurd rfl hne⟩

/-- Witness for C8 at a concrete call. -/
theorem c8_witness :
    (check_rate_limit 2 0 rl_init).2.user_cooldowns 2 = rl_init.user_cooldowns 2 ∨
    rl_init.user_cooldowns 2 < (check_rate_limit 2 0 rl_init).2.user_cooldowns 2 :=
  (c8_cooldown_monotone 2 0 rl_init).1

/-! ## Run lemmas for the rate limiter -/

lemma rl_run_nil (s : RateState) : rl_run [] s = ([], s) := rfl

lemma rl_run_cons (a : Int) (t : ℚ) (es : List (Int × ℚ)) (s : RateState) :
    rl_run ((a, t) :: es) s =
      ((a, (check_rate_limit a t s).1) :: (rl_run es (check_rate_limit a t s).2).1,
        (rl_run es (check_rate_limit a t s).2).2) := rfl

lemma rl_run_append (es1 es2 : List (Int × ℚ)) :
    ∀ s : RateState,
      rl_run (es1 ++ es2) s =
        ((rl_run es1 s).1 ++ (rl_run es2 (rl_run es1 s).2).1,
          (rl_run es2 (rl_run es1 s).2).2) := by
  induction es1 with
  | nil => intro s; simp [rl_run_nil]
  | cons e es ih =>
    intro s
    obtain ⟨a, t⟩ := e
    simp [rl_run_cons, ih]

/-- From a state whose queue for `a` and incoming call times all lie within a
single window `[α, α + WINDOW]`, with no active cooldown and with room under
the limit, every call is Allowed, nothing is evicted, and the calls' times are
appended in order. -/
lemma rl_run_all_allowed (a : Int) (α : ℚ) (ts : List ℚ) :
    ∀ s : RateState,
      (∀ t ∈ ts, ¬ t < s.user_cooldowns a) →
      (∀ x ∈ s.user_timestamps a, α ≤ x) →
      (∀ t ∈ ts, α ≤ t ∧ t ≤ α + (REQUEST_WINDOW : ℚ)) →
      (s.user_timestamps a).length + ts.length ≤ REQUEST_LIMIT →
      (rl_run (ts.map fun t => (a, t)) s).1 =
        ts.map (fun _ => (a, ((true : Bool), (0 : Int)))) ∧
      (rl_run (ts.map fun t => (a, t)) s).2 = updT s a (s.user_timestamps a ++ ts) := by
  induction ts with
  | nil =>
    intro s _ _ _ _
    simpa [rl_run_nil] using (updT_self s a).symm
  | cons t ts ih =>
    intro s h1 h2 h3 h4
    have hcool : ¬ t < s.user_cooldowns a := h1 t (by simp)
    have hkeep : evictOld t (s.user_timestamps a) = s.user_timestamps a := by
      apply evictOld_eq_self
      intro x hx hlt
      have hax := h2 x hx
      have htw := (h3 t (by simp)).2
      linarith
    have hlen : ¬ REQUEST_LIMIT ≤ (evictOld t (s.user_timestamps a)).length := by
      rw [hkeep]
      simp only [List.length_cons] at h4
      omega
    have hstep := check_eq_allowed a t s hcool hlen
    rw [hkeep] at hstep
    have hrec := ih (updT s a (s.user_timestamps a ++ [t]))
      (by
        intro u hu
        simpa [updT] using h1 u (by simp [hu]))
      (by
        intro x hx
        rw [updT_timestamps_self] at hx
        rcases List.mem_append.1 hx with h | h
        · exact h2 x h
        · simp only [List.mem_singleton] at h
          subst h
          exact (h3 x (by simp)).1)
      (by
        intro u hu
        exact h3 u (by simp [hu]))
      (by
        rw [updT_timestamps_self, List.length_append]
        simp only [List.length_cons] at h4
        simp only [List.length_singleton]
        omega)
    rw [List.map_cons, rl_run_cons, hstep]
    constructor
    · simp only [List.map_cons]
      rw [← hrec.1]
    · rw [hrec.2, updT_timestamps_self, updT_updT, List.append_assoc, List.singleton_append]

/-- Mapping a constant over a list yields a replicate of its length. -/
lemma map_const_eq_replicate {β : Type} (l : List ℚ) (b : β) :
    l.map (fun _ => b) = List.replicate l.length b := by
  induction l with
  | nil => rfl
  | cons x xs ih => simp [List.replicate, ih]

/-! ## Theorems: C5 -/

/-- After 50 requests at time 0 from a fresh state, a further request at any
time `tb ∈ [0, WINDOW]` evicts nothing, is blocked by the limit, and starts a
cooldown expiring at `tb + COOLDOWN`. -/
lemma c5_prefix (a : Int) (tb : ℚ) (h0 : 0 ≤ tb) (hw : tb ≤ (REQUEST_WINDOW : ℚ)) :
    rl_run (List.replicate 50 (a, (0 : ℚ)) ++ [(a, tb)]) rl_init =
      (List.replicate 50 (a, ((true : Bool), (0 : Int))) ++
          [(a, (false, COOLDOWN_TIME / 60))],
        updC (updT rl_init a (List.replicate 50 (0 : ℚ))) a (tb + (COOLDOWN_TIME : ℚ))) := by
  have hwpos : (0 : ℚ) ≤ (REQUEST_WINDOW : ℚ) := le_trans h0 hw
  have hmap : List.replicate 50 (a, (0 : ℚ)) =
      (List.replicate 50 (0 : ℚ)).map (fun t => (a, t)) := by
    simp [List.map_replicate]
  have hrun := rl_run_all_allowed a 0 (List.replicate 50 (0 : ℚ)) rl_init
    (by
      intro t ht
      rw [List.eq_of_mem_replicate ht]
      simp [rl_init])
    (by simp [rl_init])
    (by
      intro t ht
      rw [List.eq_of_mem_replicate ht]
      constructor
      · exact le_refl 0
      · simpa using hwpos)
    (by simp [rl_init, REQUEST_LIMIT])
  have hnil : rl_init.user_timestamps a = [] := rfl
  rw [hnil, List.nil_append] at hrun
  have hcool : ¬ tb < (updT rl_init a (List.replicate 50 (0 : ℚ))).user_cooldowns a :=
    not_lt.2 h0
  have hev : evictOld tb (List.replicate 50 (0 : ℚ)) = List.replicate 50 (0 : ℚ) := by
    apply evictOld_eq_self
    intro x hx hlt
    rw [List.eq_of_mem_replicate hx] at hlt
    linarith
  have hlen : REQUEST_LIMIT ≤
      (evictOld tb ((updT rl_init a (List.replicate 50 (0 : ℚ))).user_timestamps a)).length := by
    rw [updT_timestamps_self, hev]
    simp [REQUEST_LIMIT]
  have estep := check_eq_blocked a tb (updT rl_init a (List.replicate 50 (0 : ℚ))) hcool hlen
  rw [updT_timestamps_self, hev, updT_updT] at estep
  rw [rl_run_append, hmap, hrun.1, hrun.2, rl_run_cons, rl_run_nil, estep]
  simp [List.map_replicate]

/-- **C5** is false as stated, in two concrete runs from a fresh state (the
listed booleans are the allowed/blocked verdicts of the successive calls):
(a) 50 requests at time 0 are allowed and the 51st at time 0 is blocked, but a
new request exactly WINDOW = 3600 s after the first request is still blocked
(the eviction predicate `timestamp < now - WINDOW` is strict, so the queue
keeps all 50 entries); (b) with the blocked 51st request 3500 s into the
window, a new request 3601 s after the first request — strictly more than
WINDOW — is still blocked by the 1800 s cooldown that started at 3500 s. -/
theorem c5_counterexample :
    (((rl_run (List.replicate 51 ((7 : Int), (0 : ℚ)) ++ [(7, 3600)]) rl_init).1).map
        (fun r => r.2.1) = List.replicate 50 true ++ [false, false]) ∧
    (((rl_run (List.replicate 50 ((7 : Int), (0 : ℚ)) ++ [(7, 3500), (7, 3601)]) rl_init).1).map
        (fun r => r.2.1) = List.replicate 50 true ++ [false, false]) := by
  constructor
  · have hpre := c5_prefix 7 0 (le_refl 0) (by norm_num [REQUEST_WINDOW])
    have ht : (updC (updT rl_init 7 (List.replicate 50 (0 : ℚ))) 7
        ((0 : ℚ) + (COOLDOWN_TIME : ℚ))).user_timestamps 7 = List.replicate 50 (0 : ℚ) :=
      updT_timestamps_self rl_init 7 _
    have hev2 : evictOld 3600 (List.replicate 50 (0 : ℚ)) = List.replicate 50 (0 : ℚ) := by
      apply evictOld_eq_self
      intro x hx
      rw [List.eq_of_mem_replicate hx]
      norm_num [REQUEST_WINDOW]
    have hlen2 : REQUEST_LIMIT ≤ (evictOld 3600 ((updC (updT rl_init 7
        (List.replicate 50 (0 : ℚ))) 7
          ((0 : ℚ) + (COOLDOWN_TIME : ℚ))).user_timestamps 7)).length := by
      rw [ht, hev2]
      simp [REQUEST_LIMIT]
    have estep := check_eq_blocked 7 3600
      (updC (updT rl_init 7 (List.replicate 50 (0 : ℚ))) 7 ((0 : ℚ) + (COOLDOWN_TIME : ℚ)))
      (by rw [updC_cooldowns_self]; norm_num [COOLDOWN_TIME]) hlen2
    rw [show (51 : ℕ) = 50 + 1 from rfl, List.replicate_succ', rl_run_append, hpre]
    dsimp only
    rw [rl_run_cons, rl_run_nil, estep]
    simp [List.map_replicate]
  · have hpre := c5_prefix 7 3500 (by norm_num) (by norm_num [REQUEST_WINDOW])
    have estep := check_eq_cooldown 7 3601
      (updC (updT rl_init 7 (List.replicate 50 (0 : ℚ))) 7 ((3500 : ℚ) + (COOLDOWN_TIME : ℚ)))
      (by rw [updC_cooldowns_self]; norm_num [COOLDOWN_TIME])
    rw [show ((7 : Int), (3500 : ℚ)) :: [((7 : Int), (3601 : ℚ))] =
        [((7 : Int), (3500 : ℚ))] ++ [((7 : Int), (3601 : ℚ))] from rfl,
      ← List.append_assoc, rl_run_append, hpre]
    dsimp only
    rw [rl_run_cons, rl_run_nil, estep]
    simp [List.map_replicate]

/-- **C5** (amended): for a fixed identity starting fresh, LIMIT requests whose
times all lie within `[t0, t0 + WINDOW]` of the first request at `t0` are all
Allowed; a further request at `tb` within that window is Blocked and starts a
cooldown expiring at `tb + COOLDOWN`; and a new request at any time `tn` that
is strictly more than WINDOW after the first request and not before that
cooldown expiry is Allowed again, because the first timestamp is evicted from
the queue.  (The claim's original phrasing — Allowed as soon as time has
advanced by WINDOW from the first request — fails both at the exact boundary
and while the cooldown is still running; see the counterexample.) -/
theorem c5_window_recovery (a : Int) (t0 : ℚ) (rest : List ℚ) (tb tn : ℚ)
    (hlen : rest.length = 49)
    (h0 : 0 ≤ t0)
    (hrest : ∀ t ∈ rest, t0 ≤ t ∧ t ≤ t0 + (REQUEST_WINDOW : ℚ))
    (hb1 : t0 ≤ tb) (hb2 : tb ≤ t0 + (REQUEST_WINDOW : ℚ))
    (hn1 : tb + (COOLDOWN_TIME : ℚ) ≤ tn)
    (hn2 : t0 + (REQUEST_WINDOW : ℚ) < tn) :
    (rl_run (((t0 :: rest).map fun t => (a, t)) ++ [(a, tb), (a, tn)]) rl_init).1.map
        (fun r => r.2) =
      List.replicate REQUEST_LIMIT ((true : Bool), (0 : Int)) ++
        [(false, COOLDOWN_TIME / 60), (true, 0)] := by
  have hwin : (0 : ℚ) ≤ (REQUEST_WINDOW : ℚ) := by norm_num [REQUEST_WINDOW]
  have hts : ∀ t ∈ t0 :: rest, t0 ≤ t ∧ t ≤ t0 + (REQUEST_WINDOW : ℚ) := by
    intro t ht
    rcases List.mem_cons.1 ht with h | h
    · subst h
      exact ⟨le_refl t, by linarith⟩
    · exact hrest t h
  have hrun := rl_run_all_allowed a t0 (t0 :: rest) rl_init
    (by
      intro t ht
      have h1 := (hts t ht).1
      show ¬ t < (0 : ℚ)
      intro hlt
      linarith)
    (by
      intro x hx
      simp [rl_init] at hx)
    hts
    (by simp [rl_init, REQUEST_LIMIT, hlen])
  have hnil : rl_init.user_timestamps a = [] := rfl
  rw [hnil, List.nil_append] at hrun
  have hcool1 : ¬ tb < (updT rl_init a (t0 :: rest)).user_cooldowns a := by
    show ¬ tb < (0 : ℚ)
    intro hlt
    linarith
  have hev1 : evictOld tb (t0 :: rest) = t0 :: rest := by
    apply evictOld_eq_self
    intro x hx hlt
    have h1 := (hts x hx).1
    linarith
  have hlen1 : REQUEST_LIMIT ≤
      (evictOld tb ((updT rl_init a (t0 :: rest)).user_timestamps a)).length := by
    rw [updT_timestamps_self, hev1]
    simp [REQUEST_LIMIT, hlen]
  have estep1 := check_eq_blocked a tb (updT rl_init a (t0 :: rest)) hcool1 hlen1
  rw [updT_timestamps_self, hev1, updT_updT] at estep1
  have hcool2 : ¬ tn <
      (updC (updT rl_init a (t0 :: rest)) a (tb + (COOLDOWN_TIME : ℚ))).user_cooldowns a := by
    rw [updC_cooldowns_self]
    intro hlt
    linarith
  have htim2 : (updC (updT rl_init a (t0 :: rest)) a
      (tb + (COOLDOWN_TIME : ℚ))).user_timestamps a = t0 :: rest :=
    updT_timestamps_self rl_init a _
  have hev2 : evictOld tn (t0 :: rest) = evictOld tn rest := by
    have hdrop : t0 < tn - (REQUEST_WINDOW : ℚ) := by linarith
    simp [evictOld, hdrop]
  have hlen2 : ¬ REQUEST_LIMIT ≤ (evictOld tn ((updC (updT rl_init a (t0 :: rest)) a
      (tb + (COOLDOWN_TIME : ℚ))).user_timestamps a)).length := by
    rw [htim2, hev2]
    have hle := evictOld_length_le tn rest
    have h50 : REQUEST_LIMIT = 50 := rfl
    omega
  have estep2 := check_eq_allowed a tn
    (updC (updT rl_init a (t0 :: rest)) a (tb + (COOLDOWN_TIME : ℚ))) hcool2 hlen2
  rw [rl_run_append, hrun.1, hrun.2, rl_run_cons, estep1]
  dsimp only
  rw [rl_run_cons, rl_run_nil, estep2]
  dsimp only
  simp [map_const_eq_replicate, hlen, REQUEST_LIMIT]

/-- Witness for the amended C5: 50 requests at time 0, a blocked 51st request
at time 0, and a recovery request at 3700 s. -/
theorem c5_witness :
    (rl_run (((0 :: List.replicate 49 (0 : ℚ)).map fun t => ((9 : Int), t)) ++
        [(9, 0), (9, 3700)]) rl_init).1.map (fun r => r.2) =
      List.replicate REQUEST_LIMIT ((true : Bool), (0 : Int)) ++
        [(false, COOLDOWN_TIME / 60), (true, 0)] :=
  c5_window_recovery 9 0 (List.replicate 49 (0 : ℚ)) 0 3700
    (by simp)
    (le_refl 0)
    (by
      intro t ht
      rw [List.eq_of_mem_replicate ht]
      norm_num [REQUEST_WINDOW])
    (le_refl 0)
    (by norm_num [REQUEST_WINDOW])
    (by norm_num [COOLDOWN_TIME])
    (by norm_num [REQUEST_WINDOW])

/-! ## Theorems: C4 -/

/-- A call for identity `a` writes nothing of any other identity `b`. -/
lemma check_frame (a b : Int) (t : ℚ) (s : RateState) (h : b ≠ a) :
    (check_rate_limit a t s).2.user_timestamps b = s.user_timestamps b ∧
    (check_rate_limit a t s).2.user_cooldowns b = s.user_cooldowns b := by
  by_cases h1 : t < s.user_cooldowns a
  · rw [check_eq_cooldown a t s h1]
    exact ⟨rfl, rfl⟩
  · by_cases h2 : REQUEST_LIMIT ≤ (evictOld t (s.user_timestamps a)).length
    · rw [check_eq_blocked a t s h1 h2]
      exact ⟨by simp [updC, updT, h], by simp [updC, updT, h]⟩
    · rw [check_eq_allowed a t s h1 h2]
      exact ⟨by simp [updT, h], rfl⟩

/-- A call for identity `a` reads nothing of any other identity: on two states
agreeing at `a`, the result is the same and the post-states agree at `a`. -/
lemma check_agree (a : Int) (t : ℚ) (s s2 : RateState) (h : agreeAt a s s2) :
    (check_rate_limit a t s).1 = (check_rate_limit a t s2).1 ∧
    agreeAt a (check_rate_limit a t s).2 (check_rate_limit a t s2).2 := by
  obtain ⟨ht, hc⟩ := h
  by_cases h1 : t < s.user_cooldowns a
  · have h1b : t < s2.user_cooldowns a := by rw [← hc]; exact h1
    rw [check_eq_cooldown a t s h1, check_eq_cooldown a t s2 h1b]
    exact ⟨by rw [hc], ht, hc⟩
  · have h1b : ¬ t < s2.user_cooldowns a := by rw [← hc]; exact h1
    by_cases h2 : REQUEST_LIMIT ≤ (evictOld t (s.user_timestamps a)).length
    · have h2b : REQUEST_LIMIT ≤ (evictOld t (s2.user_timestamps a)).length := by
        rw [← ht]; exact h2
      rw [check_eq_blocked a t s h1 h2, check_eq_blocked a t s2 h1b h2b]
      exact ⟨rfl, by simp [updC, updT, ht], by simp [updC, updT]⟩
    · have h2b : ¬ REQUEST_LIMIT ≤ (evictOld t (s2.user_timestamps a)).length := by
        rw [← ht]; exact h2
      rw [check_eq_allowed a t s h1 h2, check_eq_allowed a t s2 h1b h2b]
      exact ⟨rfl, by simp [updT, ht], hc⟩

/-- The results observed at identity `a`'s calls in any run equal the results
of running `a`'s calls alone, from any state agreeing at `a`. -/
lemma rl_run_project (a : Int) (es : List (Int × ℚ)) :
    ∀ s s2 : RateState, agreeAt a s s2 →
      ((rl_run es s).1.filter (fun e => e.1 == a) =
        (rl_run (es.filter (fun e => e.1 == a)) s2).1) ∧
      agreeAt a (rl_run es s).2 (rl_run (es.filter (fun e => e.1 == a)) s2).2 := by
  induction es with
  | nil =>
    intro s s2 h
    exact ⟨rfl, h⟩
  | cons e es ih =>
    intro s s2 h
    obtain ⟨c, t⟩ := e
    by_cases hca : c = a
    · subst hca
      have hstep := check_agree c t s s2 h
      have hrec := ih (check_rate_limit c t s).2 (check_rate_limit c t s2).2 hstep.2
      constructor
      · rw [rl_run_cons]
        dsimp only
        rw [List.filter_cons_of_pos (by simp), List.filter_cons_of_pos (by simp),
          rl_run_cons]
        dsimp only
        rw [hstep.1, hrec.1]
      · rw [rl_run_cons]
        dsimp only
        rw [List.filter_cons_of_pos (by simp), rl_run_cons]
        dsimp only
        exact hrec.2
    · have hframe := check_frame c a t s (Ne.symm hca)
      have hagree2 : agreeAt a (check_rate_limit c t s).2 s2 :=
        ⟨hframe.1.trans h.1, hframe.2.trans h.2⟩
      have hrec := ih (check_rate_limit c t s).2 s2 hagree2
      constructor
      · rw [rl_run_cons]
        dsimp only
        rw [List.filter_cons_of_neg (by simp [hca]), List.filter_cons_of_neg (by simp [hca])]
        exact hrec.1
      · rw [rl_run_cons]
        dsimp only
        rw [List.filter_cons_of_neg (by simp [hca])]
        exact hrec.2

/-- Each run result is tagged with its event's identity. -/
lemma rl_run_fst (es : List (Int × ℚ)) :
    ∀ s : RateState, ((rl_run es s).1).map (fun e => e.1) = es.map (fun e => e.1) := by
  induction es with
  | nil => intro s; rfl
  | cons e es ih =>
    intro s
    obtain ⟨c, t⟩ := e
    rw [rl_run_cons]
    dsimp only
    rw [List.map_cons, List.map_cons, ih]

lemma list_fst_const (c : Int) (l : List (Int × ℚ)) (h : ∀ e ∈ l, e.1 = c) :
    (l.map (fun e => e.2)).map (fun t => (c, t)) = l := by
  induction l with
  | nil => rfl
  | cons e l ih =>
    rw [List.map_cons, List.map_cons, ih (fun x hx => h x (List.mem_cons_of_mem e hx))]
    have he : e.1 = c := h e (List.mem_cons_self e l)
    rw [← he]

/-- From a fresh state, any single identity issuing at most LIMIT requests
within one window is always Allowed. -/
lemma run_from_init_allowed (c : Int) (es : List (Int × ℚ))
    (hc : ∀ e ∈ es, e.1 = c)
    (htm : ∀ e ∈ es, 0 ≤ e.2 ∧ e.2 ≤ (REQUEST_WINDOW : ℚ))
    (hl : es.length ≤ REQUEST_LIMIT) :
    ∀ r ∈ (rl_run es rl_init).1, r.2 = ((true : Bool), (0 : Int)) := by
  have hrun := rl_run_all_allowed c 0 (es.map (fun e => e.2)) rl_init
    (by
      intro t ht
      obtain ⟨e, he, rfl⟩ := List.mem_map.1 ht
      have h1 := (htm e he).1
      show ¬ e.2 < (0 : ℚ)
      intro hlt
      linarith)
    (by
      intro x hx
      simp [rl_init] at hx)
    (by
      intro t ht
      obtain ⟨e, he, rfl⟩ := List.mem_map.1 ht
      refine ⟨(htm e he).1, ?_⟩
      rw [zero_add]
      exact (htm e he).2)
    (by simpa [rl_init] using hl)
  rw [list_fst_const c es hc] at hrun
  intro r hr
  rw [hrun.1] at hr
  obtain ⟨t, ht, rfl⟩ := List.mem_map.1 hr
  rfl

/-- **C4**: rate-limit state is fully partitioned by identity.  A call for `a`
leaves any other identity `b`'s queue and cooldown entry untouched; in any
event sequence the results observed at `a`'s (resp. `b`'s) calls equal those
of running `a`'s (resp. `b`'s) calls alone; in particular, from a fresh state,
two distinct identities interleaving at most LIMIT in-window requests each are
all Allowed — they never block each other. -/
theorem c4_per_identity_isolation (a b : Int) (now : ℚ) (s : RateState)
    (es : List (Int × ℚ)) (hab : a ≠ b) :
    ((check_rate_limit a now s).2.user_timestamps b = s.user_timestamps b ∧
      (check_rate_limit a now s).2.user_cooldowns b = s.user_cooldowns b) ∧
    ((rl_run es s).1.filter (fun e => e.1 == a) =
      (rl_run (es.filter (fun e => e.1 == a)) s).1) ∧
    ((rl_run es s).1.filter (fun e => e.1 == b) =
      (rl_run (es.filter (fun e => e.1 == b)) s).1) ∧
    (s = rl_init →
      (∀ e ∈ es, e.1 = a ∨ e.1 = b) →
      (∀ e ∈ es, 0 ≤ e.2 ∧ e.2 ≤ (REQUEST_WINDOW : ℚ)) →
      (es.filter (fun e => e.1 == a)).length ≤ REQUEST_LIMIT →
      (es.filter (fun e => e.1 == b)).length ≤ REQUEST_LIMIT →
      ∀ r ∈ (rl_run es s).1, r.2 = ((true : Bool), (0 : Int))) := by
  refine ⟨check_frame a b now s (Ne.symm hab),
    (rl_run_project a es s s ⟨rfl, rfl⟩).1,
    (rl_run_project b es s s ⟨rfl, rfl⟩).1, ?_⟩
  intro hs hids htm hla hlb r hr
  subst hs
  have hr1 : r.1 ∈ es.map (fun e => e.1) := by
    rw [← rl_run_fst es rl_init]
    exact List.mem_map_of_mem _ hr
  obtain ⟨e, he, heq⟩ := List.mem_map.1 hr1
  have hcase : r.1 = a ∨ r.1 = b := heq ▸ hids e he
  have key : ∀ c : Int, r.1 = c →
      (es.filter (fun e => e.1 == c)).length ≤ REQUEST_LIMIT →
      r.2 = ((true : Bool), (0 : Int)) := by
    intro c hrc hlc
    have hmem : r ∈ (rl_run es rl_init).1.filter (fun e => e.1 == c) :=
      List.mem_filter.2 ⟨hr, by simp [hrc]⟩
    rw [(rl_run_project c es rl_init rl_init ⟨rfl, rfl⟩).1] at hmem
    refine run_from_init_allowed c (es.filter (fun e => e.1 == c)) ?_ ?_ hlc r hmem
    · intro x hx
      have hx2 := (List.mem_filter.1 hx).2
      simpa using hx2
    · intro x hx
      exact htm x (List.mem_filter.1 hx).1
  rcases hcase with h | h
  · exact key a h hla
  · exact key b h hlb

/-- Witness for C4: a concrete interleaving of identities 1 and 2. -/
theorem c4_witness :
    (rl_run [((1 : Int), (0 : ℚ)), (2, 0), (1, 5)] rl_init).1.filter
        (fun e => e.1 == (1 : Int)) =
      (rl_run ([((1 : Int), (0 : ℚ)), (2, 0), (1, 5)].filter
        (fun e => e.1 == (1 : Int))) rl_init).1 :=
  (c4_per_identity_isolation 1 2 0 rl_init [((1 : Int), (0 : ℚ)), (2, 0), (1, 5)]
    (by decide)).2.1

/-! ## Theorems: C2, C3, C10 -/

/-- **C2** is false as stated: the pipeline never checks for nonzero size — an
existing zero-byte file still produces `Success`. -/
theorem c2_counterexample :
    ¬ (∀ (mp : Option String) (mt : String) (fs : String → Option Nat) (p k : String),
        handle_media_result mp mt fs = PipelineResult.success p k →
        ∀ n, fs p = some n → 0 < n) := by
  intro h
  have h0 := h (some "v.mp4") "video" (fun _ => some 0) "v.mp4" "video" (by decide) 0 rfl
  exact absurd h0 (lt_irrefl 0)

/-- **C2** (amended): whenever the pipeline produces `Success{filePath, kind}`,
the file at filePath exists and its size is at most 50 MiB, enforced before
Success is returned; and an existing file exceeding the ceiling yields
`Failure{TooLarge}` regardless of its extension or claimed media kind.  (A
zero-byte file is not rejected.) -/
theorem c2_success_size_bound (mp : Option String) (mt : String)
    (fs : String → Option Nat) :
    (∀ p k, handle_media_result mp mt fs = PipelineResult.success p k →
      mp = some p ∧ k = mt ∧ ∃ n, fs p = some n ∧ n ≤ SIZE_LIMIT) ∧
    (∀ p n, mp = some p → p ≠ "" → fs p = some n → SIZE_LIMIT < n →
      handle_media_result mp mt fs = PipelineResult.failTooLarge) := by
  constructor
  · intro p k h
    match mp with
    | none => simp [handle_media_result] at h
    | some q =>
      by_cases hq : q = ""
      · simp [handle_media_result, hq] at h
      · cases hfs : fs q with
        | none => simp [handle_media_result, hq, hfs] at h
        | some n =>
          by_cases hn : SIZE_LIMIT < n
          · simp [handle_media_result, hq, hfs, hn] at h
          · simp [handle_media_result, hq, hfs, hn] at h
            obtain ⟨h1, h2⟩ := h
            subst h1
            exact ⟨rfl, h2.symm, n, hfs, not_lt.1 hn⟩
  · intro p n hmp hne hfs hlt
    subst hmp
    simp [handle_media_result, hne, hfs, hlt]

/-- Witness for the amended C2: an oversized `.jpg` is rejected as TooLarge. -/
theorem c2_witness :
    handle_media_result (some "a.jpg") "photo" (fun _ => some (SIZE_LIMIT + 1)) =
      PipelineResult.failTooLarge :=
  (c2_success_size_bound (some "a.jpg") "photo" (fun _ => some (SIZE_LIMIT + 1))).2
    "a.jpg" (SIZE_LIMIT + 1) rfl (by decide) rfl (Nat.lt_succ_self SIZE_LIMIT)

/-- **C3**: when the primary extraction raises `DownloadError` whose message
contains "There is no video in this post", `download_media` returns exactly
the photo fallback's result (run in the same scratch directory) instead of a
failure of its own; and when the fallback leaves a file with a photo extension
in the directory (the first such file in `iterdir` order), that file is
returned with kind "photo". -/
theorem c3_photo_fallback_on_no_video (msg : String) (dirFiles : List FsFile)
    (fb : Option (List FsFile))
    (h : hasSubstring NO_VIDEO_MSG msg = true) :
    download_media (ExtractOutcome.downloadError msg) dirFiles fb =
      download_photo_fallback fb ∧
    (∀ files f, fb = some files →
      files.find? (fun g => valid_photo_exts.contains (lowerStr g.suffix)) = some f →
      download_media (ExtractOutcome.downloadError msg) dirFiles fb =
        (some f.path, "photo")) := by
  have hdl : download_media (ExtractOutcome.downloadError msg) dirFiles fb =
      download_photo_fallback fb := by
    simp [download_media, h]
  refine ⟨hdl, ?_⟩
  intro files f hfb hfind
  rw [hdl, hfb]
  simp only [download_photo_fallback]
  rw [hfind]

/-- Witness for C3: a concrete no-video error message routes to the fallback,
which returns the thumbnail jpg it downloaded. -/
theorem c3_witness :
    download_media (ExtractOutcome.downloadError
        "ERROR: There is no video in this post") []
        (some [⟨"/tmp/x/abc.jpg", "abc", ".jpg"⟩]) =
      (some "/tmp/x/abc.jpg", "photo") :=
  (c3_photo_fallback_on_no_video "ERROR: There is no video in this post" []
      (some [⟨"/tmp/x/abc.jpg", "abc", ".jpg"⟩]) (by decide)).2
    [⟨"/tmp/x/abc.jpg", "abc", ".jpg"⟩] ⟨"/tmp/x/abc.jpg", "abc", ".jpg"⟩ rfl (by decide)

/-- **C10**: for an album post (`media_type = 8`), `download_instagram_media`
returns only the first downloaded file and always labels it "photo",
independently of what the file is and of the remaining album files, which are
never returned. -/
theorem c10_album_returns_first_as_photo (photoFile videoFile f : String)
    (rest : List String) :
    download_instagram_media
        (instagram_client_download MEDIA_TYPE_ALBUM photoFile videoFile (f :: rest)) =
      (some f, "photo") := rfl

/-! ## Theorems: C9 -/

lemma consumes_pEps : Consumes pEps := by
  intro s c r h
  simp only [pEps, Option.some.injEq, Prod.mk.injEq] at h
  obtain ⟨rfl, rfl⟩ := h
  rfl

lemma consumes_pChar (p : Char → Bool) : Consumes (pChar p) := by
  intro s c r h
  cases s with
  | nil => simp [pChar] at h
  | cons x xs =>
    simp only [pChar] at h
    by_cases hp : p x
    · rw [if_pos hp] at h
      simp only [Option.some.injEq, Prod.mk.injEq] at h
      obtain ⟨rfl, rfl⟩ := h
      rfl
    · rw [if_neg hp] at h
      simp at h

lemma consumes_pLit (lit : List Char) : Consumes (pLit lit) := by
  induction lit with
  | nil =>
    intro s c r h
    simp only [pLit, Option.some.injEq, Prod.mk.injEq] at h
    obtain ⟨rfl, rfl⟩ := h
    rfl
  | cons a as ih =>
    intro s c r h
    cases s with
    | nil => simp [pLit] at h
    | cons x xs =>
      simp only [pLit] at h
      by_cases hax : a == x
      · rw [if_pos hax] at h
        cases hrec : pLit as xs with
        | none => rw [hrec] at h; simp at h
        | some res =>
          obtain ⟨d, rr⟩ := res
          rw [hrec] at h
          simp only [Option.some.injEq, Prod.mk.injEq] at h
          obtain ⟨rfl, rfl⟩ := h
          have hih := ih xs d rr hrec
          rw [hih]
          rfl
      · rw [if_neg hax] at h
        simp at h

lemma pRun_split (p : Char → Bool) : ∀ s : List Char, (pRun p s).1 ++ (pRun p s).2 = s := by
  intro s
  induction s with
  | nil => rfl
  | cons x xs ih =>
    by_cases hp : p x
    · simp only [pRun, if_pos hp, List.cons_append, ih]
    · simp only [pRun, if_neg hp, List.nil_append]

lemma consumes_pStar (p : Char → Bool) : Consumes (pStar p) := by
  intro s c r h
  simp only [pStar, Option.some.injEq] at h
  have hs := pRun_split p s
  rw [h] at hs
  exact hs.symm

lemma consumes_pPlus (p : Char → Bool) : Consumes (pPlus p) := by
  intro s c r h
  cases s with
  | nil => simp [pPlus] at h
  | cons x xs =>
    simp only [pPlus] at h
    by_cases hp : p x
    · rw [if_pos hp] at h
      simp only [Option.some.injEq, Prod.mk.injEq] at h
      obtain ⟨rfl, rfl⟩ := h
      rw [List.cons_append, pRun_split]
    · rw [if_neg hp] at h
      simp at h

lemma consumes_pSeq {a b : Parser} (ha : Consumes a) (hb : Consumes b) :
    Consumes (pSeq a b) := by
  intro s c r h
  unfold pSeq at h
  cases hA : a s with
  | none => rw [hA] at h; simp at h
  | some resA =>
    obtain ⟨c1, r1⟩ := resA
    rw [hA] at h
    dsimp only at h
    cases hB : b r1 with
    | none => rw [hB] at h; simp at h
    | some resB =>
      obtain ⟨c2, r2⟩ := resB
      rw [hB] at h
      dsimp only at h
      simp only [Option.some.injEq, Prod.mk.injEq] at h
      obtain ⟨rfl, rfl⟩ := h
      rw [ha s c1 r1 hA, hb r1 c2 r2 hB, List.append_assoc]

lemma consumes_pAlt {a b : Parser} (ha : Consumes a) (hb : Consumes b) :
    Consumes (pAlt a b) := by
  intro s c r h
  unfold pAlt at h
  cases hA : a s with
  | none =>
    rw [hA] at h
    dsimp only at h
    exact hb s c r h
  | some x =>
    rw [hA] at h
    dsimp only at h
    exact ha s c r (hA.trans h)

lemma consumes_pOptChar (p : Char → Bool) : Consumes (pOptChar p) :=
  consumes_pAlt (consumes_pChar p) consumes_pEps

lemma consumes_httpPart : Consumes httpPart :=
  consumes_pSeq (consumes_pLit _)
    (consumes_pSeq (consumes_pOptChar _) (consumes_pLit _))

lemma consumes_optSlashTail : Consumes optSlashTail :=
  consumes_pAlt (consumes_pSeq (consumes_pChar _) (consumes_pStar _)) consumes_pEps

lemma consumes_igAt : Consumes igAt :=
  consumes_pSeq consumes_httpPart
    (consumes_pSeq (consumes_pAlt (consumes_pLit _) consumes_pEps)
      (consumes_pSeq (consumes_pLit _)
        (consumes_pSeq
          (consumes_pAlt (consumes_pSeq (consumes_pLit _) (consumes_pOptChar _))
            (consumes_pAlt (consumes_pLit _) (consumes_pLit _)))
          (consumes_pSeq (consumes_pChar _)
            (consumes_pSeq (consumes_pPlus _) consumes_optSlashTail)))))

lemma consumes_tkAt : Consumes tkAt :=
  consumes_pSeq consumes_httpPart
    (consumes_pSeq
      (consumes_pAlt (consumes_pLit _)
        (consumes_pAlt (consumes_pLit _)
          (consumes_pAlt (consumes_pLit _) (consumes_pAlt (consumes_pLit _) consumes_pEps))))
      (consumes_pSeq (consumes_pLit _)
        (consumes_pSeq
          (consumes_pAlt
            (consumes_pSeq (consumes_pChar _)
              (consumes_pSeq (consumes_pPlus _)
                (consumes_pSeq (consumes_pLit _) (consumes_pPlus _))))
            (consumes_pAlt
              (consumes_pSeq (consumes_pLit _)
                (consumes_pSeq (consumes_pPlus _) (consumes_pLit _)))
              (consumes_pPlus _)))
          consumes_optSlashTail)))

lemma consumes_fbAt : Consumes fbAt :=
  consumes_pSeq consumes_httpPart
    (consumes_pSeq
      (consumes_pAlt (consumes_pLit _)
        (consumes_pAlt (consumes_pLit _) (consumes_pAlt (consumes_pLit _) consumes_pEps)))
      (consumes_pSeq (consumes_pLit _)
        (consumes_pAlt
          (consumes_pSeq
            (consumes_pSeq (consumes_pLit _)
              (consumes_pSeq (consumes_pOptChar _) (consumes_pLit _)))
            (consumes_pPlus _))
          (consumes_pAlt
            (consumes_pSeq (consumes_pSeq (consumes_pPlus _) (consumes_pLit _))
              (consumes_pPlus _))
            (consumes_pSeq
              (consumes_pSeq (consumes_pLit _)
                (consumes_pSeq (consumes_pChar _) (consumes_pChar _)))
              (consumes_pPlus _))))))

/-- A successful `pySearch` splits the input into skipped prefix, matched
span, and remainder. -/
lemma pySearch_split {m : Parser} (hm : Consumes m) :
    ∀ s pre c r, pySearch m s = some (pre, c, r) → s = pre ++ (c ++ r) := by
  intro s
  induction s with
  | nil =>
    intro pre c r h
    simp only [pySearch] at h
    cases hM : m [] with
    | none => rw [hM] at h; simp at h
    | some res =>
      obtain ⟨c0, r0⟩ := res
      rw [hM] at h
      dsimp only at h
      simp only [Option.some.injEq, Prod.mk.injEq] at h
      obtain ⟨rfl, rfl, rfl⟩ := h
      simpa using hm [] c0 r0 hM
  | cons x xs ih =>
    intro pre c r h
    simp only [pySearch] at h
    cases hM : m (x :: xs) with
    | some res =>
      obtain ⟨c0, r0⟩ := res
      rw [hM] at h
      dsimp only at h
      simp only [Option.some.injEq, Prod.mk.injEq] at h
      obtain ⟨rfl, rfl, rfl⟩ := h
      simpa using hm _ c0 r0 hM
    | none =>
      rw [hM] at h
      dsimp only at h
      cases hrec : pySearch m xs with
      | none => rw [hrec] at h; simp at h
      | some res =>
        obtain ⟨pre0, c0, r0⟩ := res
        rw [hrec] at h
        dsimp only at h
        simp only [Option.some.injEq, Prod.mk.injEq] at h
        obtain ⟨rfl, rfl, rfl⟩ := h
        rw [List.cons_append, ih pre0 c0 r0 hrec]

/-- **C9**: `extract_video_url` applies the platform patterns in the fixed
priority order instagram, tiktok, facebook and returns the first pattern's
leftmost match anywhere in the text — the matched span as the URL, paired with
that pattern's platform tag; when no pattern matches it returns `none`; and
every returned URL is a contiguous substring of the input text.  (Determinism
and absence of side effects are inherent: the embedding is a pure function of
`text`.) -/
theorem c9_extract_video_url_priority (text : String) :
    (extract_video_url text = none ↔
      pySearch igAt text.data = none ∧ pySearch tkAt text.data = none ∧
        pySearch fbAt text.data = none) ∧
    (∀ pre span rest, pySearch igAt text.data = some (pre, span, rest) →
      extract_video_url text = some (String.mk span, "instagram")) ∧
    (pySearch igAt text.data = none →
      ∀ pre span rest, pySearch tkAt text.data = some (pre, span, rest) →
        extract_video_url text = some (String.mk span, "tiktok")) ∧
    (pySearch igAt text.data = none → pySearch tkAt text.data = none →
      ∀ pre span rest, pySearch fbAt text.data = some (pre, span, rest) →
        extract_video_url text = some (String.mk span, "facebook")) ∧
    (∀ url platform, extract_video_url text = some (url, platform) →
      ∃ pre post, text.data = pre ++ (url.data ++ post)) := by
  cases hig : pySearch igAt text.data with
  | some resI =>
    obtain ⟨preI, spanI, restI⟩ := resI
    have hx : extract_video_url text = some (String.mk spanI, "instagram") := by
      unfold extract_video_url
      rw [hig]
    refine ⟨by simp [hx, hig], ?_, ?_, ?_, ?_⟩
    · intro pre span rest h
      simp only [Option.some.injEq, Prod.mk.injEq] at h
      obtain ⟨-, h2, -⟩ := h
      rw [hx, h2]
    · intro h
      simp at h
    · intro h
      simp at h
    · intro url platform h
      rw [hx] at h
      simp only [Option.some.injEq, Prod.mk.injEq] at h
      obtain ⟨h1, -⟩ := h
      refine ⟨preI, restI, ?_⟩
      rw [← h1]
      exact pySearch_split consumes_igAt text.data preI spanI restI hig
  | none =>
    cases htk : pySearch tkAt text.data with
    | some resT =>
      obtain ⟨preT, spanT, restT⟩ := resT
      have hx : extract_video_url text = some (String.mk spanT, "tiktok") := by
        unfold extract_video_url
        rw [hig, htk]
      refine ⟨by simp [hx, htk], ?_, ?_, ?_, ?_⟩
      · intro pre span rest h
        simp at h
      · intro _ pre span rest h
        simp only [Option.some.injEq, Prod.mk.injEq] at h
        obtain ⟨-, h2, -⟩ := h
        rw [hx, h2]
      · intro _ h
        simp at h
      · intro url platform h
        rw [hx] at h
        simp only [Option.some.injEq, Prod.mk.injEq] at h
        obtain ⟨h1, -⟩ := h
        refine ⟨preT, restT, ?_⟩
        rw [← h1]
        exact pySearch_split consumes_tkAt text.data preT spanT restT htk
    | none =>
      cases hfb : pySearch fbAt text.data with
      | some resF =>
        obtain ⟨preF, spanF, restF⟩ := resF
        have hx : extract_video_url text = some (String.mk spanF, "facebook") := by
          unfold extract_video_url
          rw [hig, htk, hfb]
        refine ⟨by simp [hx, hfb], ?_, ?_, ?_, ?_⟩
        · intro pre span rest h
          simp at h
        · intro _ pre span rest h
          simp at h
        · intro _ _ pre span rest h
          simp only [Option.some.injEq, Prod.mk.injEq] at h
          obtain ⟨-, h2, -⟩ := h
          rw [hx, h2]
        · intro url platform h
          rw [hx] at h
          simp only [Option.some.injEq, Prod.mk.injEq] at h
          obtain ⟨h1, -⟩ := h
          refine ⟨preF, restF, ?_⟩
          rw [← h1]
          exact pySearch_split consumes_fbAt text.data preF spanF restF hfb
      | none =>
        have hx : extract_video_url text = none := by
          unfold extract_video_url
          rw [hig, htk, hfb]
        refine ⟨by simp [hx], ?_, ?_, ?_, ?_⟩
        · intro pre span rest h
          simp at h
        · intro _ pre span rest h
          simp at h
        · intro _ _ pre span rest h
          simp at h
        · intro url platform h
          rw [hx] at h
          simp at h

/-- Witness for C9: a concrete message whose Instagram link is found after a
non-matching prefix. -/
theorem c9_witness :
    extract_video_url "go https://instagram.com/p/ab" =
      some ("https://instagram.com/p/ab", "instagram") := by
  have h := (c9_extract_video_url_priority "go https://instagram.com/p/ab").2.1
    ("go ".data) ("https://instagram.com/p/ab".data) [] (by decide)
  exact h.trans (by decide)
